import Mathlib

/-!
Verification development for the `omnisensor_433` firmware and its rtl_433
decoder.

Shallow embedding conventions, used consistently below:
* `uint8_t` / `uint16_t` values are `Nat`, kept below 256 / 65536 by the
  operations themselves (`% 256`, `% 65536`) exactly where the C code
  masks or where the C type forces a wrap on conversion.
* `int16_t` / `int32_t` values are `Int`.  A C cast of an unsigned value
  `n` to a signed type of width `w` is `if n % 2^w < 2^(w-1) then n % 2^w
  else n % 2^w - 2^w` (two's complement reading of the low `w` bits).
* An arithmetic right shift `x >> k` of a signed value is floor division
  `x / 2^k` (Lean's `Int` division is Euclidean, which is floor division
  for a positive divisor).  Masking a signed value with `& (2^k - 1)` is
  `x % 2^k` (Lean's `Int.emod` is non-negative for a positive modulus,
  matching the two's-complement bit pattern of the low `k` bits).
* `a << k | b`, when the operands occupy disjoint bit ranges (every use
  below), is written `a * 2^k + b`.
-/

/-- Signal types of the transmitter, from `enum SIGNAL_T` in `omni.ino`
(`NONE = -1, SIG_SYNC = 0, SIG_SYNC_GAP, SIG_ZERO, SIG_ONE, SIG_IM_GAP,
SIG_PULSE`). -/
inductive SIGNAL_T where
  | NONE
  | SIG_SYNC
  | SIG_SYNC_GAP
  | SIG_ZERO
  | SIG_ONE
  | SIG_IM_GAP
  | SIG_PULSE
deriving DecidableEq, Repr

export SIGNAL_T (NONE SIG_SYNC SIG_SYNC_GAP SIG_ZERO SIG_ONE SIG_IM_GAP SIG_PULSE)

/-- The numeric value of each `SIGNAL_T` enumerator, used as an index into
the `signals` array.  `NONE` is `-1` in the C source and is never used as
an index (`playback` returns on `NONE` before indexing); we map it to 0
here, unused. -/
def sigIndex : SIGNAL_T → Nat
  | NONE => 0
  | SIG_SYNC => 0
  | SIG_SYNC_GAP => 1
  | SIG_ZERO => 2
  | SIG_ONE => 3
  | SIG_IM_GAP => 4
  | SIG_PULSE => 5

/-- One row of the timing-duration table, from `typedef struct {...} SIGNAL`
in `omni.ino`: signal type, descriptive name, microseconds with the voltage
asserted, microseconds with the voltage deasserted. -/
structure SIGNAL where
  sig_type : SIGNAL_T
  sig_name : String
  up_time : Nat
  delay_time : Nat
deriving DecidableEq, Repr

/-- Fallback `SIGNAL` used for out-of-range list reads in the embedding
(never reached on the paths proved below). -/
def sigDefault : SIGNAL := ⟨NONE, "", 0, 0⟩

/-- The timing table `omni_signals[6]` of `class omni` in `src/omni.ino`
(lines 326-333), transcribed row for row. -/
def omni_signals : List SIGNAL :=
  [⟨SIG_SYNC, "Sync", 600, 600⟩,
   ⟨SIG_SYNC_GAP, "Sync-gap", 200, 800⟩,
   ⟨SIG_ZERO, "Zero", 400, 200⟩,
   ⟨SIG_ONE, "One", 200, 400⟩,
   ⟨SIG_IM_GAP, "IM_gap", 0, 1250⟩,
   ⟨SIG_PULSE, "Pulse", 0, 0⟩]

/-- The timing table `omni_signals[6]` of the variant firmware in
`src/unnamed/part_000` (lines 250-257, "Timings adjusted for Pico 2 based
on rtl_433 recording"), transcribed row for row. -/
def omni_signals_v0 : List SIGNAL :=
  [⟨SIG_SYNC, "Sync", 576, 628⟩,
   ⟨SIG_SYNC_GAP, "Sync-gap", 176, 828⟩,
   ⟨SIG_ZERO, "Zero", 376, 228⟩,
   ⟨SIG_ONE, "One", 176, 428⟩,
   ⟨SIG_IM_GAP, "IM_gap", 0, 1250⟩,
   ⟨SIG_PULSE, "Pulse", 0, 0⟩]

/-- The 256-entry lookup table `CRC8Table` for polynomial 0x97
(`omni.ino` lines 239-261), transcribed entry for entry. -/
def CRC8Table : List Nat :=
  [0x00, 0x97, 0xb9, 0x2e, 0xe5, 0x72, 0x5c, 0xcb, 0x5d, 0xca, 0xe4, 0x73,
   0xb8, 0x2f, 0x01, 0x96, 0xba, 0x2d, 0x03, 0x94, 0x5f, 0xc8, 0xe6, 0x71,
   0xe7, 0x70, 0x5e, 0xc9, 0x02, 0x95, 0xbb, 0x2c, 0xe3, 0x74, 0x5a, 0xcd,
   0x06, 0x91, 0xbf, 0x28, 0xbe, 0x29, 0x07, 0x90, 0x5b, 0xcc, 0xe2, 0x75,
   0x59, 0xce, 0xe0, 0x77, 0xbc, 0x2b, 0x05, 0x92, 0x04, 0x93, 0xbd, 0x2a,
   0xe1, 0x76, 0x58, 0xcf, 0x51, 0xc6, 0xe8, 0x7f, 0xb4, 0x23, 0x0d, 0x9a,
   0x0c, 0x9b, 0xb5, 0x22, 0xe9, 0x7e, 0x50, 0xc7, 0xeb, 0x7c, 0x52, 0xc5,
   0x0e, 0x99, 0xb7, 0x20, 0xb6, 0x21, 0x0f, 0x98, 0x53, 0xc4, 0xea, 0x7d,
   0xb2, 0x25, 0x0b, 0x9c, 0x57, 0xc0, 0xee, 0x79, 0xef, 0x78, 0x56, 0xc1,
   0x0a, 0x9d, 0xb3, 0x24, 0x08, 0x9f, 0xb1, 0x26, 0xed, 0x7a, 0x54, 0xc3,
   0x55, 0xc2, 0xec, 0x7b, 0xb0, 0x27, 0x09, 0x9e, 0xa2, 0x35, 0x1b, 0x8c,
   0x47, 0xd0, 0xfe, 0x69, 0xff, 0x68, 0x46, 0xd1, 0x1a, 0x8d, 0xa3, 0x34,
   0x18, 0x8f, 0xa1, 0x36, 0xfd, 0x6a, 0x44, 0xd3, 0x45, 0xd2, 0xfc, 0x6b,
   0xa0, 0x37, 0x19, 0x8e, 0x41, 0xd6, 0xf8, 0x6f, 0xa4, 0x33, 0x1d, 0x8a,
   0x1c, 0x8b, 0xa5, 0x32, 0xf9, 0x6e, 0x40, 0xd7, 0xfb, 0x6c, 0x42, 0xd5,
   0x1e, 0x89, 0xa7, 0x30, 0xa6, 0x31, 0x1f, 0x88, 0x43, 0xd4, 0xfa, 0x6d,
   0xf3, 0x64, 0x4a, 0xdd, 0x16, 0x81, 0xaf, 0x38, 0xae, 0x39, 0x17, 0x80,
   0x4b, 0xdc, 0xf2, 0x65, 0x49, 0xde, 0xf0, 0x67, 0xac, 0x3b, 0x15, 0x82,
   0x14, 0x83, 0xad, 0x3a, 0xf1, 0x66, 0x48, 0xdf, 0x10, 0x87, 0xa9, 0x3e,
   0xf5, 0x62, 0x4c, 0xdb, 0x4d, 0xda, 0xf4, 0x63, 0xa8, 0x3f, 0x11, 0x86,
   0xaa, 0x3d, 0x13, 0x84, 0x4f, 0xd8, 0xf6, 0x61, 0xf7, 0x60, 0x4e, 0xd9,
   0x12, 0x85, 0xab, 0x3c]

/-- `uint8_t crc8(uint8_t *msg, int lengthOfMsg, uint8_t init)` from
`omni.ino` lines 263-268: `while (lengthOfMsg-- > 0) init =
CRC8Table[(init ^ *msg++)]; return init;`.  The table index is a `uint8_t`
expression, hence the `% 256` (a no-op when both arguments are bytes). -/
def crc8 (msg : List Nat) (init : Nat) : Nat :=
  msg.foldl (fun r b => CRC8Table.getD ((r ^^^ b) % 256) 0) init

/-- Two's-complement reading of the low 16 bits of a value: the effect of a
C cast to `int16_t`. -/
def toInt16 (n : Nat) : Int :=
  if n % 65536 < 32768 then (n % 65536 : Nat) else (n % 65536 : Nat) - 65536

/-- Two's-complement reading of the low 32 bits of a value: the effect of a
C cast to `int32_t`. -/
def toInt32 (n : Nat) : Int :=
  if n % 4294967296 < 2147483648 then (n % 4294967296 : Nat)
  else (n % 4294967296 : Nat) - 4294967296

/-- `omni::pack_msg` from `src/omni.ino` lines 380-395, producing the
10-byte message as a list.  Line-for-line translation (`iTemp`, `oTemp` are
`int16_t`; see the file comment for the signed-arithmetic conventions):
* `msg[0] = (fmt & 0x0f) << 4 | (id & 0x0f)`  →  `fmt % 16 * 16 + id % 16`
* `msg[1] = (iTemp >> 4) & 0xff`              →  `((iTemp / 16) % 256).toNat`
* `msg[2] = ((iTemp << 4) & 0xf0) | ((oTemp >> 8) & 0x0f)`
                          →  `(iTemp % 16).toNat * 16 + ((oTemp / 256) % 16).toNat`
* `msg[3] = oTemp & 0xff`                     →  `(oTemp % 256).toNat`
* `msg[4] = iHum & 0xff`, `msg[5] = oHum & 0xff`
* `msg[6] = (press >> 8) & 0xff`, `msg[7] = press & 0xff`
* `msg[8] = volts & 0xff`
* `msg[9] = crc8(msg, 9, 0x00)` -/
def pack_msg (fmt id : Nat) (iTemp oTemp : Int) (iHum oHum press volts : Nat) :
    List Nat :=
  let b0 := fmt % 16 * 16 + id % 16
  let b1 := ((iTemp / 16) % 256).toNat
  let b2 := (iTemp % 16).toNat * 16 + ((oTemp / 256) % 16).toNat
  let b3 := (oTemp % 256).toNat
  let b4 := iHum % 256
  let b5 := oHum % 256
  let b6 := press / 256 % 256
  let b7 := press % 256
  let b8 := volts % 256
  [b0, b1, b2, b3, b4, b5, b6, b7, b8, crc8 [b0, b1, b2, b3, b4, b5, b6, b7, b8] 0]

/-- The 8-tuple of out-parameters of `omni::unpack_msg`:
`(fmt, id, iTemp, oTemp, iHum, oHum, press, volts)`. -/
abbrev UnpackResult := Nat × Nat × Int × Int × Nat × Nat × Nat × Nat

/-- `omni::unpack_msg` from `src/omni.ino` lines 398-427.  On a CRC8
mismatch the C code zeroes every out-parameter (and prints a debug
message); otherwise:
* `fmt = msg[0] >> 4`, `id = msg[0] & 0x0f`
* `iTemp = ((int16_t)((((uint16_t)msg[1]) << 8) | (uint16_t)msg[2])) >> 4`
        →  `toInt16 (b1 * 256 + b2) / 16`
* `oTemp = ((int16_t)((((uint16_t)msg[2]) << 12) | ((uint16_t)msg[3]) << 4)) >> 4`
        →  `toInt16 (b2 * 4096 + b3 * 16) / 16`
* `iHum = msg[4]`, `oHum = msg[5]`
* `press = ((uint16_t)(msg[6] << 8)) | msg[7]`  →  `b6 * 256 % 65536 + b7`
* `volts = msg[8]`
The C parameter is a `uint8_t[10]` array; lists of any other length fall
into a dummy arm (unreachable for packets, which are 10 bytes). -/
def unpack_msg : List Nat → UnpackResult
  | [b0, b1, b2, b3, b4, b5, b6, b7, b8, b9] =>
    if b9 ≠ crc8 [b0, b1, b2, b3, b4, b5, b6, b7, b8] 0 then
      (0, 0, 0, 0, 0, 0, 0, 0)
    else
      (b0 / 16, b0 % 16,
       toInt16 (b1 * 256 + b2) / 16,
       toInt16 (b2 * 4096 + b3 * 16) / 16,
       b4, b5,
       b6 * 256 % 65536 + b7,
       b8)
  | _ => (0, 0, 0, 0, 0, 0, 0, 0)

example : unpack_msg (pack_msg 1 9 224 (-215) 45 50 10037 188) =
    (1, 9, 224, -215, 45, 50, 10037, 188) := rfl

example : pack_msg 0 9 224 215 45 50 10037 188 =
    [0x09, 0x0e, 0x00, 0xd7, 0x2d, 0x32, 0x27, 0x35, 0xbc, 0xbc] := by decide

example : crc8 [0x09, 0x0e, 0x00, 0xd7, 0x2d, 0x32, 0x27, 0x35, 0xbc] 0xaa = 0x91 := by
  decide

/-- C1.  Round-trip: for every `fmt` and `id` in 0..15, `iTemp` and `oTemp`
in -2048..2047 (12-bit two's complement), `iHum` and `oHum` in 0..255,
`press` in 0..65535 and `volts` in 0..255, applying `unpack_msg` to the
10-byte packet produced by `pack_msg` recovers exactly the same tuple,
including all the boundary values. -/
theorem c1_pack_unpack_roundtrip
    (fmt id : Nat) (iTemp oTemp : Int) (iHum oHum press volts : Nat)
    (hfmt : fmt < 16) (hid : id < 16)
    (hiT1 : -2048 ≤ iTemp) (hiT2 : iTemp ≤ 2047)
    (hoT1 : -2048 ≤ oTemp) (hoT2 : oTemp ≤ 2047)
    (hiH : iHum < 256) (hoH : oHum < 256)
    (hp : press < 65536) (hv : volts < 256) :
    unpack_msg (pack_msg fmt id iTemp oTemp iHum oHum press volts) =
      (fmt, id, iTemp, oTemp, iHum, oHum, press, volts) := by
  simp only [pack_msg, unpack_msg]
  rw [if_neg (fun h => h rfl)]
  simp only [toInt16, Prod.mk.injEq]
  refine ⟨by omega, by omega, ?_, ?_, by omega, by omega, by omega, by omega⟩
  · split <;> omega
  · split <;> omega

/-- C1, witness: the round-trip theorem applied at the boundary values
`fmt = 15`, `id = 0`, `iTemp = -2048`, `oTemp = 2047`, `press = 65535`,
`volts = 255`. -/
theorem c1_pack_unpack_roundtrip_witness :
    unpack_msg (pack_msg 15 0 (-2048) 2047 255 0 65535 255) =
      (15, 0, -2048, 2047, 255, 0, 65535, 255) :=
  c1_pack_unpack_roundtrip 15 0 (-2048) 2047 255 0 65535 255
    (by decide) (by decide) (by decide) (by decide) (by decide) (by decide)
    (by decide) (by decide) (by decide) (by decide)

/-- State of an `ISM_Device` object as far as waveform compilation is
concerned (`omni.ino` lines 276-292): the command array `SIGNAL_T
cmdList[400]` and the fill pointer `uint16_t listEnd`.  The array is
modelled as a total function on indices so that out-of-bounds stores
remain observable (the C code performs no bounds check). -/
structure WaveState where
  cmdList : Nat → SIGNAL_T
  listEnd : Nat

/-- The declared capacity of `cmdList` (its C type is `SIGNAL_T cmdList[400]`;
valid indices are 0..399). -/
def CMDLIST_CAPACITY : Nat := 400

/-- A `WaveState` with an all-`NONE` array, used as a concrete start state. -/
def waveState0 : WaveState := ⟨fun _ => NONE, 0⟩

/-- `ISM_Device::insert` from `omni.ino` lines 288-292:
`cmdList[listEnd++] = signal;` — no bounds check. -/
def ISM_Device.insert (s : WaveState) (signal : SIGNAL_T) : WaveState :=
  { cmdList := Function.update s.cmdList s.listEnd signal,
    listEnd := s.listEnd + 1 }

/-- `#define REPEATS 4` from `omni.ino` line 188. -/
def REPEATS : Nat := 4

/-- The bit-to-symbol selection of `omni::make_wave` (`omni.ino` lines
441-443): `((uint8_t)((msg[i / 8] >> (7 - (i % 8))) & 0x01)) == 0 ?
SIG_ZERO : SIG_ONE`. -/
def bitSignal (msg : List Nat) (i : Nat) : SIGNAL_T :=
  if (msg.getD (i / 8) 0 >>> (7 - i % 8)) &&& 0x01 = 0 then SIG_ZERO else SIG_ONE

/-- `omni::make_wave` from `src/omni.ino` lines 429-449: reset `listEnd`
to 0; for each of `REPEATS` repetitions insert 4 `SIG_SYNC` then one bit
symbol per message bit (`msgLen` bits, MSB-first within each byte); then
insert one `SIG_IM_GAP`; finally store the `NONE` terminator at index
`listEnd` without advancing `listEnd`. -/
def make_wave (s : WaveState) (msg : List Nat) (msgLen : Nat) : WaveState :=
  let s0 : WaveState := { s with listEnd := 0 }
  let s1 := (List.range REPEATS).foldl (fun t _ =>
    let tp := (List.range 4).foldl (fun u _ => ISM_Device.insert u SIG_SYNC) t
    (List.range msgLen).foldl (fun u i => ISM_Device.insert u (bitSignal msg i)) tp) s0
  let s2 := ISM_Device.insert s1 SIG_IM_GAP
  { s2 with cmdList := Function.update s2.cmdList s2.listEnd NONE }

/-- Folding `ISM_Device.insert` over a list of signals: the functional form
of a run of consecutive `insert` calls. -/
def insertList (s : WaveState) (l : List SIGNAL_T) : WaveState :=
  l.foldl ISM_Device.insert s

/-- The symbols inserted by one call of `make_wave s msg msgLen`, as a
list: `REPEATS` blocks of 4 syncs plus `msgLen` bit symbols, then the
inter-message gap. -/
def waveList (msg : List Nat) (msgLen : Nat) : List SIGNAL_T :=
  ((List.range REPEATS).flatMap fun _ =>
    List.replicate 4 SIG_SYNC ++ (List.range msgLen).map (bitSignal msg)) ++
  [SIG_IM_GAP]

lemma insertList_nil (s : WaveState) : insertList s [] = s := rfl

lemma insertList_cons (s : WaveState) (a : SIGNAL_T) (l : List SIGNAL_T) :
    insertList s (a :: l) = insertList (ISM_Device.insert s a) l := rfl

lemma insertList_append (s : WaveState) (l₁ l₂ : List SIGNAL_T) :
    insertList s (l₁ ++ l₂) = insertList (insertList s l₁) l₂ :=
  List.foldl_append _ _ _ _

lemma insert_listEnd (s : WaveState) (a : SIGNAL_T) :
    (ISM_Device.insert s a).listEnd = s.listEnd + 1 := rfl

lemma insertList_listEnd (l : List SIGNAL_T) : ∀ s : WaveState,
    (insertList s l).listEnd = s.listEnd + l.length := by
  induction l with
  | nil => intro s; simp [insertList_nil]
  | cons a t ih =>
    intro s
    rw [insertList_cons, ih]
    rw [insert_listEnd]
    simp
    omega

lemma insertList_cmdList_lt (l : List SIGNAL_T) : ∀ (s : WaveState) (j : Nat),
    j < s.listEnd → (insertList s l).cmdList j = s.cmdList j := by
  induction l with
  | nil => intro s j _; rfl
  | cons a t ih =>
    intro s j hj
    rw [insertList_cons, ih _ _ (by rw [insert_listEnd]; omega)]
    simp only [ISM_Device.insert]
    rw [Function.update_noteq (by omega)]

lemma insertList_cmdList_ge (l : List SIGNAL_T) : ∀ (s : WaveState) (j : Nat),
    s.listEnd + l.length ≤ j → (insertList s l).cmdList j = s.cmdList j := by
  induction l with
  | nil => intro s j _; rfl
  | cons a t ih =>
    intro s j hj
    simp only [List.length_cons] at hj
    rw [insertList_cons, ih _ _ (by rw [insert_listEnd]; omega)]
    simp only [ISM_Device.insert]
    rw [Function.update_noteq (by omega)]

lemma insertList_cmdList_mid (l : List SIGNAL_T) : ∀ (s : WaveState) (k : Nat),
    k < l.length → (insertList s l).cmdList (s.listEnd + k) = l.getD k NONE := by
  induction l with
  | nil => intro s k hk; simp at hk
  | cons a t ih =>
    intro s k hk
    rw [insertList_cons]
    cases k with
    | zero =>
      rw [insertList_cmdList_lt t _ _ (by rw [insert_listEnd]; omega)]
      simp [ISM_Device.insert]
    | succ k =>
      have h : s.listEnd + (k + 1) = (ISM_Device.insert s a).listEnd + k := by
        rw [insert_listEnd]; omega
      rw [h, ih _ _ (by simpa using hk)]
      rfl

/-- `make_wave`, rewritten as a single `insertList` run from a zeroed fill
pointer, followed by the terminator store. -/
lemma make_wave_eq (s : WaveState) (msg : List Nat) (msgLen : Nat) :
    make_wave s msg msgLen =
      { cmdList :=
          Function.update (insertList { s with listEnd := 0 } (waveList msg msgLen)).cmdList
            (insertList { s with listEnd := 0 } (waveList msg msgLen)).listEnd NONE,
        listEnd := (insertList { s with listEnd := 0 } (waveList msg msgLen)).listEnd } := by
  have hmap : ∀ (u : WaveState),
      (List.range msgLen).foldl (fun u i => ISM_Device.insert u (bitSignal msg i)) u =
        insertList u ((List.range msgLen).map (bitSignal msg)) := by
    intro u
    generalize List.range msgLen = l
    induction l generalizing u with
    | nil => rfl
    | cons a t ih => simpa [insertList_cons] using ih (ISM_Device.insert u (bitSignal msg a))
  have hsync : ∀ (t : WaveState),
      (List.range 4).foldl (fun u _ => ISM_Device.insert u SIG_SYNC) t =
        insertList t (List.replicate 4 SIG_SYNC) := by
    intro t; rfl
  have houter : ∀ (t : WaveState),
      (List.range REPEATS).foldl (fun t _ =>
          insertList (insertList t (List.replicate 4 SIG_SYNC))
            ((List.range msgLen).map (bitSignal msg))) t =
        insertList t ((List.range REPEATS).flatMap fun _ =>
          List.replicate 4 SIG_SYNC ++ (List.range msgLen).map (bitSignal msg)) := by
    intro t
    show List.foldl _ t (List.range REPEATS) = _
    rw [show List.range REPEATS = [0, 1, 2, 3] from rfl]
    simp only [List.foldl, List.flatMap_cons, List.flatMap_nil, List.append_nil,
      insertList_append]
  simp only [make_wave, hmap, hsync, houter, waveList, insertList_append]
  rfl

lemma REPEATS_eq : REPEATS = 4 := rfl

lemma waveList_length (msg : List Nat) (msgLen : Nat) :
    (waveList msg msgLen).length = REPEATS * (4 + msgLen) + 1 := by
  unfold waveList
  rw [show List.range REPEATS = [0, 1, 2, 3] from rfl]
  simp [List.flatMap_cons, REPEATS_eq]
  omega

lemma make_wave_cmdList_def (s : WaveState) (msg : List Nat) (msgLen : Nat) :
    (make_wave s msg msgLen).cmdList =
      Function.update (insertList { s with listEnd := 0 } (waveList msg msgLen)).cmdList
        (insertList { s with listEnd := 0 } (waveList msg msgLen)).listEnd NONE := by
  rw [make_wave_eq]

lemma make_wave_listEnd (s : WaveState) (msg : List Nat) (msgLen : Nat) :
    (make_wave s msg msgLen).listEnd = REPEATS * (4 + msgLen) + 1 := by
  rw [make_wave_eq]
  show (insertList { s with listEnd := 0 } (waveList msg msgLen)).listEnd = _
  rw [insertList_listEnd, waveList_length]
  simp

lemma insertList_from_zero_listEnd (s : WaveState) (msg : List Nat) (msgLen : Nat) :
    (insertList { s with listEnd := 0 } (waveList msg msgLen)).listEnd =
      REPEATS * (4 + msgLen) + 1 := by
  rw [insertList_listEnd, waveList_length]
  simp

lemma make_wave_cmdList_of_lt (s : WaveState) (msg : List Nat) (msgLen i : Nat)
    (h : i < REPEATS * (4 + msgLen) + 1) :
    (make_wave s msg msgLen).cmdList i = (waveList msg msgLen).getD i NONE := by
  rw [make_wave_cmdList_def]
  rw [Function.update_noteq (by rw [insertList_from_zero_listEnd]; omega)]
  simpa using insertList_cmdList_mid (waveList msg msgLen) { s with listEnd := 0 } i
    (by rw [waveList_length]; omega)

lemma make_wave_cmdList_at_end (s : WaveState) (msg : List Nat) (msgLen : Nat) :
    (make_wave s msg msgLen).cmdList (REPEATS * (4 + msgLen) + 1) = NONE := by
  rw [make_wave_cmdList_def, ← insertList_from_zero_listEnd s msg msgLen,
    Function.update_same]

lemma make_wave_cmdList_of_gt (s : WaveState) (msg : List Nat) (msgLen j : Nat)
    (h : REPEATS * (4 + msgLen) + 1 < j) :
    (make_wave s msg msgLen).cmdList j = s.cmdList j := by
  rw [make_wave_cmdList_def]
  rw [Function.update_noteq (by rw [insertList_from_zero_listEnd]; omega)]
  rw [insertList_cmdList_ge _ _ _ (by rw [waveList_length]; show 0 + _ ≤ j; omega)]

/-- The symbol sequence the specification prescribes for one transmission
of an 80-bit message: 4 repetitions of (4 `SIG_SYNC` then 80 bit symbols,
one per message bit taken MSB-first within each byte, `SIG_ZERO` for a 0
bit and `SIG_ONE` for a 1 bit), followed by one `SIG_IM_GAP`.  Stated
with `Nat.testBit`, independently of `make_wave`'s shift-mask selection. -/
def specWave (msg : List Nat) : List SIGNAL_T :=
  ((List.range 4).flatMap fun _ =>
    List.replicate 4 SIG_SYNC ++ (List.range 80).map fun i =>
      if (msg.getD (i / 8) 0).testBit (7 - i % 8) then SIG_ONE else SIG_ZERO) ++
  [SIG_IM_GAP]

lemma bitSignal_eq_testBit (msg : List Nat) (i : Nat) :
    bitSignal msg i =
      if (msg.getD (i / 8) 0).testBit (7 - i % 8) then SIG_ONE else SIG_ZERO := by
  unfold bitSignal
  rw [Nat.and_one_is_mod, Nat.shiftRight_eq_div_pow, Nat.testBit_to_div_mod]
  rcases Nat.mod_two_eq_zero_or_one (msg.getD (i / 8) 0 / 2 ^ (7 - i % 8)) with h | h <;>
    simp only [h] <;> simp

lemma waveList_80_eq_specWave (msg : List Nat) : waveList msg 80 = specWave msg := by
  unfold waveList specWave
  rw [REPEATS_eq, funext (bitSignal_eq_testBit msg)]

/-- C3.  Waveform-compiler output characterization: for every message,
`make_wave` at message length 80 with `REPEATS = 4` fills the command list
with exactly the 337 = 4×84 + 1 symbols of `specWave` — 4 repetitions of
(4 `SIG_SYNC` then the 80 message bits MSB-first, `SIG_ZERO`/`SIG_ONE`) and
one final `SIG_IM_GAP` — sets `listEnd = 337`, and stores the `NONE`
sentinel at index 337. -/
theorem c3_make_wave_output (s : WaveState) (msg : List Nat) :
    (make_wave s msg 80).listEnd = 337 ∧
    (specWave msg).length = 337 ∧
    (∀ i, i < 337 → (make_wave s msg 80).cmdList i = (specWave msg).getD i NONE) ∧
    (make_wave s msg 80).cmdList 337 = NONE := by
  refine ⟨by rw [make_wave_listEnd, REPEATS_eq], ?_, ?_, ?_⟩
  · rw [← waveList_80_eq_specWave, waveList_length, REPEATS_eq]
  · intro i hi
    rw [make_wave_cmdList_of_lt s msg 80 i (by rw [REPEATS_eq]; omega),
      waveList_80_eq_specWave]
  · have h := make_wave_cmdList_at_end s msg 80
    rwa [REPEATS_eq] at h

/-- C3, witness: the characterization applied to a concrete start state
and the concrete message `09 0e 00 d7 2d 32 27 35 bc bc`, read off at
indices 4 (bit 0 of byte 0) and 337 (the sentinel). -/
theorem c3_make_wave_output_witness :
    (make_wave waveState0 [0x09, 0x0e, 0x00, 0xd7, 0x2d, 0x32, 0x27, 0x35, 0xbc, 0xbc] 80).listEnd
        = 337 ∧
    (make_wave waveState0 [0x09, 0x0e, 0x00, 0xd7, 0x2d, 0x32, 0x27, 0x35, 0xbc, 0xbc] 80).cmdList 4
        = (specWave [0x09, 0x0e, 0x00, 0xd7, 0x2d, 0x32, 0x27, 0x35, 0xbc, 0xbc]).getD 4 NONE ∧
    (make_wave waveState0 [0x09, 0x0e, 0x00, 0xd7, 0x2d, 0x32, 0x27, 0x35, 0xbc, 0xbc] 80).cmdList 337
        = NONE :=
  ⟨(c3_make_wave_output waveState0 _).1,
   (c3_make_wave_output waveState0 _).2.2.1 4 (by decide),
   (c3_make_wave_output waveState0 _).2.2.2⟩

/-- C10 (implicit).  `make_wave` is history-independent and idempotent:
it resets `listEnd` to 0 on entry, so for any two prior states the
resulting `listEnd` (= `REPEATS × (4 + msgLen) + 1`) and every command-list
entry at indices `0..listEnd` (the `NONE` terminator included) agree —
repeating the call after any prior sequence of `make_wave` calls leaves the
observable command-list state identical to the first call, with no
accumulation across transmissions. -/
theorem c10_make_wave_history_independent (s₁ s₂ : WaveState) (msg : List Nat)
    (msgLen : Nat) :
    (make_wave s₁ msg msgLen).listEnd = REPEATS * (4 + msgLen) + 1 ∧
    (make_wave s₁ msg msgLen).listEnd = (make_wave s₂ msg msgLen).listEnd ∧
    ∀ i, i ≤ (make_wave s₁ msg msgLen).listEnd →
      (make_wave s₁ msg msgLen).cmdList i = (make_wave s₂ msg msgLen).cmdList i := by
  refine ⟨make_wave_listEnd s₁ msg msgLen, ?_, ?_⟩
  · rw [make_wave_listEnd, make_wave_listEnd]
  · intro i hi
    rw [make_wave_listEnd] at hi
    rcases Nat.lt_or_ge i (REPEATS * (4 + msgLen) + 1) with h | h
    · rw [make_wave_cmdList_of_lt s₁ msg msgLen i h, make_wave_cmdList_of_lt s₂ msg msgLen i h]
    · have he : i = REPEATS * (4 + msgLen) + 1 := by omega
      rw [he, make_wave_cmdList_at_end, make_wave_cmdList_at_end]

/-- C10, witness: two different prior states — the all-`NONE` fresh state
and the state left behind by a previous `make_wave` call on a different,
longer message — yield identical observable command lists for the same
80-bit message. -/
theorem c10_make_wave_history_independent_witness :
    (make_wave waveState0 (List.replicate 10 0xa5) 80).listEnd = REPEATS * (4 + 80) + 1 ∧
    (make_wave waveState0 (List.replicate 10 0xa5) 80).listEnd =
      (make_wave (make_wave waveState0 (List.replicate 12 0xff) 96)
        (List.replicate 10 0xa5) 80).listEnd ∧
    (make_wave waveState0 (List.replicate 10 0xa5) 80).cmdList 337 =
      (make_wave (make_wave waveState0 (List.replicate 12 0xff) 96)
        (List.replicate 10 0xa5) 80).cmdList 337 :=
  ⟨(c10_make_wave_history_independent waveState0
      (make_wave waveState0 (List.replicate 12 0xff) 96) (List.replicate 10 0xa5) 80).1,
   (c10_make_wave_history_independent waveState0
      (make_wave waveState0 (List.replicate 12 0xff) 96) (List.replicate 10 0xa5) 80).2.1,
   (c10_make_wave_history_independent waveState0
      (make_wave waveState0 (List.replicate 12 0xff) 96) (List.replicate 10 0xa5) 80).2.2
    337 (by rw [make_wave_listEnd, REPEATS_eq])⟩

/-- C6, counterexample.  The claim says the compiler rejects or truncates
any input whose symbol count would exceed the command-buffer capacity.  It
does neither: `insert` has no bounds check, and `make_wave` on a (10-byte)
message with `msgLen = 255` performs 4×(4+255)+1 = 1037 insertions,
storing symbols at indices far beyond the last valid `cmdList` index 399 —
here, index 400 receives `SIG_ZERO` even though the initial state held
`NONE` everywhere. -/
theorem c6_overflow_counterexample :
    (make_wave waveState0 (List.replicate 10 0) 255).listEnd = 1037 ∧
    ¬ ((make_wave waveState0 (List.replicate 10 0) 255).listEnd ≤ CMDLIST_CAPACITY) ∧
    (make_wave waveState0 (List.replicate 10 0) 255).cmdList CMDLIST_CAPACITY = SIG_ZERO ∧
    waveState0.cmdList CMDLIST_CAPACITY = NONE := by
  refine ⟨by rw [make_wave_listEnd]; rfl, by rw [make_wave_listEnd]; decide, ?_, rfl⟩
  rw [show CMDLIST_CAPACITY = 400 from rfl,
    make_wave_cmdList_of_lt waveState0 (List.replicate 10 0) 255 400 (by decide)]
  decide

/-- C6, amended.  For message lengths up to 95 bits — in particular the
80-bit messages the firmware actually transmits — every store of
`make_wave` (the `NONE` terminator included) lands at an index below the
buffer capacity 400, entries at indices ≥ 400 are never touched, and the
capacity satisfies the claimed lower bound `REPEATS × (4 + 80) + 2 ≤ 400`.
No check exists in the code, so the bound `msgLen ≤ 95` is a precondition,
not an enforced guard. -/
theorem c6_amended_within_capacity (s : WaveState) (msg : List Nat) (msgLen : Nat)
    (h : msgLen ≤ 95) :
    (make_wave s msg msgLen).listEnd = REPEATS * (4 + msgLen) + 1 ∧
    (make_wave s msg msgLen).listEnd < CMDLIST_CAPACITY ∧
    REPEATS * (4 + 80) + 2 ≤ CMDLIST_CAPACITY ∧
    ∀ j, CMDLIST_CAPACITY ≤ j → (make_wave s msg msgLen).cmdList j = s.cmdList j := by
  refine ⟨make_wave_listEnd s msg msgLen, ?_, by decide, ?_⟩
  · rw [make_wave_listEnd, REPEATS_eq, show CMDLIST_CAPACITY = 400 from rfl]
    omega
  · intro j hj
    refine make_wave_cmdList_of_gt s msg msgLen j ?_
    rw [REPEATS_eq]
    rw [show CMDLIST_CAPACITY = 400 from rfl] at hj
    omega

/-- C6, amended, witness: the in-capacity theorem at the actual message
length 80, checked at index 400 of a concrete prior state. -/
theorem c6_amended_within_capacity_witness :
    (make_wave waveState0 (List.replicate 10 0x5a) 80).listEnd < CMDLIST_CAPACITY ∧
    (make_wave waveState0 (List.replicate 10 0x5a) 80).cmdList 400 =
      waveState0.cmdList 400 :=
  ⟨(c6_amended_within_capacity waveState0 (List.replicate 10 0x5a) 80 (by decide)).2.1,
   (c6_amended_within_capacity waveState0 (List.replicate 10 0x5a) 80 (by decide)).2.2.2
      400 (by decide)⟩

/-- C4, counterexample.  The claim fixes the transmitter timing table to
exactly 600µs/600µs for `SIG_SYNC`, citing both `src/omni.ino` and
`src/unnamed/part_000`; but the `part_000` variant's table assigns
576µs high / 628µs low to `SIG_SYNC` (and 376/228, 176/428 to the bit
symbols), not the claimed exact values. -/
theorem c4_timing_counterexample :
    (omni_signals_v0.getD 0 sigDefault).sig_type = SIG_SYNC ∧
    (omni_signals_v0.getD 0 sigDefault).up_time = 576 ∧
    (omni_signals_v0.getD 0 sigDefault).delay_time = 628 ∧
    (omni_signals_v0.getD 0 sigDefault).up_time ≠ 600 := by decide

/-- C4, amended.  In `src/omni.ino` the timing table assigns exactly
600µs high / 600µs low to `SIG_SYNC`, 400/200 to `SIG_ZERO`, 200/400 to
`SIG_ONE`, and 0µs high with a 1250µs ≥ 1250µs low to `SIG_IM_GAP`; the
variant table in `src/unnamed/part_000` keeps the 0/1250 gap but uses the
compensated timings 576/628 (sync), 376/228 (zero) and 176/428 (one). -/
theorem c4_timing_tables :
    ((omni_signals.getD 0 sigDefault).sig_type = SIG_SYNC ∧
     (omni_signals.getD 0 sigDefault).up_time = 600 ∧
     (omni_signals.getD 0 sigDefault).delay_time = 600) ∧
    ((omni_signals.getD 2 sigDefault).sig_type = SIG_ZERO ∧
     (omni_signals.getD 2 sigDefault).up_time = 400 ∧
     (omni_signals.getD 2 sigDefault).delay_time = 200) ∧
    ((omni_signals.getD 3 sigDefault).sig_type = SIG_ONE ∧
     (omni_signals.getD 3 sigDefault).up_time = 200 ∧
     (omni_signals.getD 3 sigDefault).delay_time = 400) ∧
    ((omni_signals.getD 4 sigDefault).sig_type = SIG_IM_GAP ∧
     (omni_signals.getD 4 sigDefault).up_time = 0 ∧
     1250 ≤ (omni_signals.getD 4 sigDefault).delay_time) ∧
    ((omni_signals_v0.getD 0 sigDefault).up_time = 576 ∧
     (omni_signals_v0.getD 0 sigDefault).delay_time = 628 ∧
     (omni_signals_v0.getD 2 sigDefault).up_time = 376 ∧
     (omni_signals_v0.getD 2 sigDefault).delay_time = 228 ∧
     (omni_signals_v0.getD 3 sigDefault).up_time = 176 ∧
     (omni_signals_v0.getD 3 sigDefault).delay_time = 428 ∧
     (omni_signals_v0.getD 4 sigDefault).up_time = 0 ∧
     1250 ≤ (omni_signals_v0.getD 4 sigDefault).delay_time) := by decide

/-- One observable effect of `ISM_Device::playback`: a write to the TX
line (`digitalWrite(TX, HIGH/LOW)`) or a timed delay
(`delayMicroseconds(n)`). -/
inductive PlayAction where
  | setLine (high : Bool)
  | delayMicros (us : Nat)
deriving DecidableEq, Repr

/-- The `signals[sig]` table row used by `playback` for a (non-`NONE`)
signal: the C code indexes the `signals` array with the enumerator's
numeric value. -/
def signalFor (signals : List SIGNAL) (sig : SIGNAL_T) : SIGNAL :=
  signals.getD (sigIndex sig) sigDefault

/-- The line writes and delays `playback` performs for one (non-`NONE`)
symbol, from `omni.ino` lines 306-313: if `up_time > 0`, set the line high
and delay `up_time`; if `delay_time > 0`, set the line low and delay
`delay_time`; a zero phase touches nothing. -/
def symbolActs (signals : List SIGNAL) (sig : SIGNAL_T) : List PlayAction :=
  (if 0 < (signalFor signals sig).up_time then
    [PlayAction.setLine true, PlayAction.delayMicros (signalFor signals sig).up_time]
   else []) ++
  (if 0 < (signalFor signals sig).delay_time then
    [PlayAction.setLine false, PlayAction.delayMicros (signalFor signals sig).delay_time]
   else [])

/-- The loop of `ISM_Device::playback` (`omni.ino` lines 295-315) starting
at index `i` with `n` iterations left, returning the emitted actions and
whether the `NONE`-sentinel error path was taken (`DBG_print(" \tERROR --
invalid signal in 'playback()': ..."); return;`). -/
def playbackAux (signals : List SIGNAL) (cmdList : Nat → SIGNAL_T) :
    Nat → Nat → List PlayAction × Bool
  | _, 0 => ([], false)
  | i, n + 1 =>
    if cmdList i = NONE then ([], true)
    else
      (symbolActs signals (cmdList i) ++ (playbackAux signals cmdList (i + 1) n).1,
       (playbackAux signals cmdList (i + 1) n).2)

/-- `ISM_Device::playback`: iterate the command list from index 0 up to
`listEnd`, aborting with an error report if the `NONE` sentinel is
encountered. -/
def playback (signals : List SIGNAL) (cmdList : Nat → SIGNAL_T) (listEnd : Nat) :
    List PlayAction × Bool :=
  playbackAux signals cmdList 0 listEnd

lemma playbackAux_no_error (signals : List SIGNAL) (cmdList : Nat → SIGNAL_T) :
    ∀ (n a : Nat), (∀ j, j < n → cmdList (a + j) ≠ NONE) →
      (playbackAux signals cmdList a n).2 = false := by
  intro n
  induction n with
  | zero => intro a _; rfl
  | succ m ih =>
    intro a h
    have h0 : cmdList a ≠ NONE := by simpa using h 0 (by omega)
    simp only [playbackAux, if_neg h0]
    refine ih (a + 1) (fun j hj => ?_)
    have hx := h (j + 1) (by omega)
    rw [(by omega : a + 1 + j = a + (j + 1))]
    exact hx

lemma playbackAux_stops_at_none (signals : List SIGNAL) (cmdList : Nat → SIGNAL_T) :
    ∀ (i a n : Nat), (∀ j, j < i → cmdList (a + j) ≠ NONE) →
      cmdList (a + i) = NONE → i < n →
      playbackAux signals cmdList a n = ((playbackAux signals cmdList a i).1, true) := by
  intro i
  induction i with
  | zero =>
    intro a n _ hnone hn
    obtain ⟨m, rfl⟩ := Nat.exists_eq_succ_of_ne_zero (by omega : n ≠ 0)
    simp only [playbackAux, if_pos (by simpa using hnone)]
  | succ k ih =>
    intro a n h hnone hn
    obtain ⟨m, rfl⟩ := Nat.exists_eq_succ_of_ne_zero (by omega : n ≠ 0)
    have h0 : cmdList a ≠ NONE := by simpa using h 0 (by omega)
    have hrec := ih (a + 1) m
      (fun j hj => by
        rw [(by omega : a + 1 + j = a + (j + 1))]; exact h (j + 1) (by omega))
      (by rw [(by omega : a + 1 + k = a + (k + 1))]; exact hnone) (by omega)
    simp only [playbackAux, if_neg h0, hrec]

/-- C9.  Playback sentinel safety: if the `NONE` sentinel sits at index
`i < listEnd` of the command list (and nowhere earlier), then `playback`
emits exactly the line writes and delays of the first `i` symbols — which
themselves complete with no error — reports the sequencing error, and
performs no write or delay for the sentinel or for any later symbol. -/
theorem c9_playback_sentinel_abort (signals : List SIGNAL) (cmdList : Nat → SIGNAL_T)
    (listEnd i : Nat) (hi : i < listEnd) (hnone : cmdList i = NONE)
    (hbefore : ∀ j, j < i → cmdList j ≠ NONE) :
    playback signals cmdList listEnd = ((playback signals cmdList i).1, true) ∧
    (playback signals cmdList i).2 = false := by
  constructor
  · exact playbackAux_stops_at_none signals cmdList i 0 listEnd
      (fun j hj => by simpa using hbefore j hj) (by simpa using hnone) hi
  · exact playbackAux_no_error signals cmdList i 0 (fun j hj => by simpa using hbefore j hj)

/-- C9, witness: a command list whose entry 2 is the sentinel, played to a
declared length of 5 with the omni timing table — playback emits exactly
the two sync symbols before the sentinel and reports the error. -/
theorem c9_playback_sentinel_abort_witness :
    playback omni_signals (fun j => if j = 2 then NONE else SIG_SYNC) 5 =
      ((playback omni_signals (fun j => if j = 2 then NONE else SIG_SYNC) 2).1, true) ∧
    (playback omni_signals (fun j => if j = 2 then NONE else SIG_SYNC) 2).2 = false :=
  c9_playback_sentinel_abort omni_signals (fun j => if j = 2 then NONE else SIG_SYNC)
    5 2 (by decide) (by decide) (by decide)

set_option maxRecDepth 8000 in
lemma CRC8Table_nodup : CRC8Table.Nodup := by decide

set_option maxRecDepth 8000 in
lemma CRC8Table_mem_lt : ∀ x ∈ CRC8Table, x < 256 := by decide

set_option maxRecDepth 8000 in
lemma CRC8Table_length : CRC8Table.length = 256 := by decide

lemma crc8_nil (r : Nat) : crc8 [] r = r := rfl

lemma crc8_cons (b : Nat) (l : List Nat) (r : Nat) :
    crc8 (b :: l) r = crc8 l (CRC8Table.getD ((r ^^^ b) % 256) 0) := rfl

lemma crc8_step_lt (r b : Nat) : CRC8Table.getD ((r ^^^ b) % 256) 0 < 256 := by
  have h : (r ^^^ b) % 256 < CRC8Table.length := by
    rw [CRC8Table_length]; exact Nat.mod_lt _ (by norm_num)
  rw [List.getD_eq_getElem _ _ h]
  exact CRC8Table_mem_lt _ (List.getElem_mem h)

lemma CRC8Table_getD_inj (i j : Nat) (hi : i < 256) (hj : j < 256) (hij : i ≠ j) :
    CRC8Table.getD i 0 ≠ CRC8Table.getD j 0 := by
  have hi' : i < CRC8Table.length := by rw [CRC8Table_length]; exact hi
  have hj' : j < CRC8Table.length := by rw [CRC8Table_length]; exact hj
  rw [List.getD_eq_getElem _ _ hi', List.getD_eq_getElem _ _ hj']
  intro h
  exact hij ((List.Nodup.getElem_inj_iff CRC8Table_nodup).mp h)

lemma xor_lt_256 (a b : Nat) (ha : a < 256) (hb : b < 256) : a ^^^ b < 256 := by
  have := Nat.xor_lt_two_pow (n := 8) (by simpa using ha) (by simpa using hb)
  simpa using this

/-- The per-byte CRC8 update is injective in the running remainder. -/
lemma crc8_step_inj_state (r r' b : Nat) (hr : r < 256) (hr' : r' < 256) (hb : b < 256)
    (hne : r ≠ r') :
    CRC8Table.getD ((r ^^^ b) % 256) 0 ≠ CRC8Table.getD ((r' ^^^ b) % 256) 0 := by
  have h1 : r ^^^ b < 256 := xor_lt_256 _ _ hr hb
  have h2 : r' ^^^ b < 256 := xor_lt_256 _ _ hr' hb
  refine CRC8Table_getD_inj _ _ (by rwa [Nat.mod_eq_of_lt h1])
    (by rwa [Nat.mod_eq_of_lt h2]) ?_
  rw [Nat.mod_eq_of_lt h1, Nat.mod_eq_of_lt h2]
  intro h
  exact hne (by
    have := congrArg (· ^^^ b) h
    simpa [Nat.xor_cancel_right] using this)

/-- The per-byte CRC8 update is injective in the byte. -/
lemma crc8_step_inj_byte (r b b' : Nat) (hr : r < 256) (hb : b < 256) (hb' : b' < 256)
    (hne : b ≠ b') :
    CRC8Table.getD ((r ^^^ b) % 256) 0 ≠ CRC8Table.getD ((r ^^^ b') % 256) 0 := by
  have h1 : r ^^^ b < 256 := xor_lt_256 _ _ hr hb
  have h2 : r ^^^ b' < 256 := xor_lt_256 _ _ hr hb'
  refine CRC8Table_getD_inj _ _ (by rwa [Nat.mod_eq_of_lt h1])
    (by rwa [Nat.mod_eq_of_lt h2]) ?_
  rw [Nat.mod_eq_of_lt h1, Nat.mod_eq_of_lt h2]
  intro h
  exact hne (by
    have := congrArg (r ^^^ ·) h
    simpa [Nat.xor_cancel_left] using this)

/-- `crc8` over a fixed byte run is injective in the initial remainder. -/
lemma crc8_inj (l : List Nat) : ∀ (r r' : Nat), (∀ b ∈ l, b < 256) →
    r < 256 → r' < 256 → r ≠ r' → crc8 l r ≠ crc8 l r' := by
  induction l with
  | nil => intro r r' _ _ _ hne; simpa [crc8_nil] using hne
  | cons a t ih =>
    intro r r' hl hr hr' hne
    rw [crc8_cons, crc8_cons]
    exact ih _ _ (fun b hb => hl b (List.mem_cons_of_mem _ hb))
      (crc8_step_lt _ _) (crc8_step_lt _ _)
      (crc8_step_inj_state r r' a hr hr' (hl a (List.mem_cons_self a t)) hne)

/-- Changing exactly one byte of a byte run changes its CRC8, whatever the
initial remainder below 256. -/
lemma crc8_set_ne (l : List Nat) : ∀ (j : Nat), (∀ b ∈ l, b < 256) →
    j < l.length → ∀ (v : Nat), v < 256 → v ≠ l.getD j 0 →
    ∀ (r : Nat), r < 256 → crc8 (l.set j v) r ≠ crc8 l r := by
  induction l with
  | nil => intro j _ hj; simp at hj
  | cons a t ih =>
    intro j hl hj v hv hne r hr
    cases j with
    | zero =>
      rw [List.set_cons_zero, crc8_cons, crc8_cons]
      exact crc8_inj t _ _ (fun b hb => hl b (List.mem_cons_of_mem _ hb))
        (crc8_step_lt _ _) (crc8_step_lt _ _)
        (crc8_step_inj_byte r v a hr hv (hl a (List.mem_cons_self a t))
          (by simpa using hne))
    | succ j =>
      rw [List.set_cons_succ, crc8_cons, crc8_cons]
      exact ih j (fun b hb => hl b (List.mem_cons_of_mem _ hb))
        (by simpa using hj) v hv (by simpa using hne) _ (crc8_step_lt _ _)

lemma list_take_set {α : Type} (l : List α) :
    ∀ (n m : Nat) (a : α), (l.set n a).take m = (l.take m).set n a := by
  induction l with
  | nil => intro n m a; simp
  | cons x t ih =>
    intro n m a
    cases n <;> cases m <;> simp [List.set, List.take, ih]

lemma list_getD_set_ne {α : Type} [Inhabited α] (l : List α) (i j : Nat) (a d : α)
    (hij : i ≠ j) (hj : j < l.length) : (l.set i a).getD j d = l.getD j d := by
  rw [List.getD_eq_getElem _ _ (by rw [List.length_set]; exact hj),
    List.getD_eq_getElem _ _ hj]
  exact List.getElem_set_ne hij _

/-- On any 10-byte list whose trailing byte differs from the CRC8 of its
first 9 bytes, `unpack_msg` takes the checksum-error branch and zeroes all
eight outputs. -/
lemma unpack_msg_zero_of_crc_ne (m : List Nat) (hlen : m.length = 10)
    (hne : m.getD 9 0 ≠ crc8 (m.take 9) 0) :
    unpack_msg m = (0, 0, 0, 0, 0, 0, 0, 0) := by
  rcases m with _ | ⟨c0, m⟩
  · simp at hlen
  rcases m with _ | ⟨c1, m⟩
  · simp at hlen
  rcases m with _ | ⟨c2, m⟩
  · simp at hlen
  rcases m with _ | ⟨c3, m⟩
  · simp at hlen
  rcases m with _ | ⟨c4, m⟩
  · simp at hlen
  rcases m with _ | ⟨c5, m⟩
  · simp at hlen
  rcases m with _ | ⟨c6, m⟩
  · simp at hlen
  rcases m with _ | ⟨c7, m⟩
  · simp at hlen
  rcases m with _ | ⟨c8, m⟩
  · simp at hlen
  rcases m with _ | ⟨c9, m⟩
  · simp at hlen
  rcases m with _ | ⟨c10, m⟩
  · exact if_pos hne
  · simp only [List.length_cons] at hlen; omega

/-- A 10-byte packet with bit `k` (0 = LSB) of byte `j` flipped:
`msg[j] ^= (1 << k)`. -/
def flipBit (msg : List Nat) (j k : Nat) : List Nat :=
  msg.set j (msg.getD j 0 ^^^ (1 <<< k))

lemma xor_shift_ne (a k : Nat) : a ^^^ (1 <<< k) ≠ a := by
  intro h
  have h2 : (1 : Nat) <<< k = 0 := by
    have := congrArg (a ^^^ ·) h
    simpa [Nat.xor_cancel_left, Nat.xor_self] using this
  rw [Nat.shiftLeft_eq, one_mul] at h2
  exact (pow_ne_zero k (by norm_num : (2 : Nat) ≠ 0)) h2

/-- C5.  Checksum sensitivity: for every valid 10-byte packet — bytes below
256, byte 9 equal to the CRC8 of bytes 0..8 with init 0x00 over the 0x97
table — and every bit position `k` of every byte `j` in 0..8, the packet
with that one bit flipped recomputes to a CRC8 that never equals the stored
byte 9, so the decode takes its checksum-error branch (`unpack_msg` zeroes
its outputs, the rtl_433 decoder's corresponding check fails). -/
theorem c5_checksum_single_bit_sensitivity
    (b0 b1 b2 b3 b4 b5 b6 b7 b8 : Nat)
    (h0 : b0 < 256) (h1 : b1 < 256) (h2 : b2 < 256) (h3 : b3 < 256)
    (h4 : b4 < 256) (h5 : b5 < 256) (h6 : b6 < 256) (h7 : b7 < 256) (h8 : b8 < 256)
    (j k : Nat) (hj : j < 9) (hk : k < 8) :
    crc8 ((flipBit [b0, b1, b2, b3, b4, b5, b6, b7, b8,
        crc8 [b0, b1, b2, b3, b4, b5, b6, b7, b8] 0] j k).take 9) 0 ≠
      (flipBit [b0, b1, b2, b3, b4, b5, b6, b7, b8,
        crc8 [b0, b1, b2, b3, b4, b5, b6, b7, b8] 0] j k).getD 9 0 ∧
    unpack_msg (flipBit [b0, b1, b2, b3, b4, b5, b6, b7, b8,
        crc8 [b0, b1, b2, b3, b4, b5, b6, b7, b8] 0] j k) =
      (0, 0, 0, 0, 0, 0, 0, 0) := by
  set l9 : List Nat := [b0, b1, b2, b3, b4, b5, b6, b7, b8] with hl9
  set msg : List Nat := [b0, b1, b2, b3, b4, b5, b6, b7, b8, crc8 l9 0] with hmsgdef
  have hl9len : l9.length = 9 := rfl
  have hmsglen : msg.length = 10 := rfl
  have hl9mem : ∀ b ∈ l9, b < 256 := by
    intro b hb
    rw [hl9] at hb
    simp only [List.mem_cons, List.not_mem_nil, or_false] at hb
    rcases hb with rfl | rfl | rfl | rfl | rfl | rfl | rfl | rfl | rfl <;> assumption
  have hgetj : msg.getD j 0 = l9.getD j 0 := by
    rw [show msg = l9 ++ [crc8 l9 0] from rfl]
    exact List.getD_append _ _ _ _ (by omega)
  have hvlt : msg.getD j 0 ^^^ (1 <<< k) < 256 := by
    refine xor_lt_256 _ _ ?_ ?_
    · rw [hgetj, List.getD_eq_getElem _ _ (by omega)]
      exact hl9mem _ (List.getElem_mem _)
    · have : (1 : Nat) <<< k = 2 ^ k := by rw [Nat.shiftLeft_eq, one_mul]
      rw [this]
      calc 2 ^ k < 2 ^ 8 := Nat.pow_lt_pow_right (by norm_num) hk
        _ = 256 := by norm_num
  have hvne : msg.getD j 0 ^^^ (1 <<< k) ≠ l9.getD j 0 := by
    rw [hgetj]; exact xor_shift_ne _ _
  have htake : (flipBit msg j k).take 9 = l9.set j (msg.getD j 0 ^^^ (1 <<< k)) := by
    rw [flipBit, list_take_set]
    rfl
  have hget9 : (flipBit msg j k).getD 9 0 = crc8 l9 0 := by
    rw [flipBit, list_getD_set_ne msg j 9 _ 0 (by omega) (by omega)]
    rfl
  have hcrcne : crc8 ((flipBit msg j k).take 9) 0 ≠ (flipBit msg j k).getD 9 0 := by
    rw [htake, hget9]
    exact crc8_set_ne l9 j hl9mem (by omega) _ hvlt hvne 0 (by norm_num)
  refine ⟨hcrcne, ?_⟩
  exact unpack_msg_zero_of_crc_ne _ (by rw [flipBit, List.length_set]; exact hmsglen)
    (Ne.symm hcrcne)

/-- C5, witness: the sensitivity theorem applied to the valid packet
`09 0e 00 d7 2d 32 27 35 bc bc` with bit 7 of byte 0 flipped. -/
theorem c5_checksum_single_bit_sensitivity_witness :
    unpack_msg (flipBit [0x09, 0x0e, 0x00, 0xd7, 0x2d, 0x32, 0x27, 0x35, 0xbc,
        crc8 [0x09, 0x0e, 0x00, 0xd7, 0x2d, 0x32, 0x27, 0x35, 0xbc] 0] 0 7) =
      (0, 0, 0, 0, 0, 0, 0, 0) :=
  (c5_checksum_single_bit_sensitivity 0x09 0x0e 0x00 0xd7 0x2d 0x32 0x27 0x35 0xbc
    (by decide) (by decide) (by decide) (by decide) (by decide) (by decide)
    (by decide) (by decide) (by decide) 0 7 (by decide) (by decide)).2

/-- C2, counterexample.  The claim says `unpack_msg` surfaces a distinct,
inspectable `ChecksumError` and never substitutes silently-zeroed field
values for a failed decode.  It does the opposite: on the corrupt packet
`00×9, 01` (whose correct CRC is 0x00, not 0x01) it writes zeroes into
every output field — a result identical to its decode of the legitimate
valid all-zero packet `00×10`, so the failure is indistinguishable from a
genuine all-zero reading. -/
theorem c2_checksum_zeroing_counterexample :
    [0, 0, 0, 0, 0, 0, 0, 0, 0, 1].getD 9 0 ≠
      crc8 ([0, 0, 0, 0, 0, 0, 0, 0, 0, 1].take 9) 0 ∧
    unpack_msg [0, 0, 0, 0, 0, 0, 0, 0, 0, 1] = (0, 0, 0, 0, 0, 0, 0, 0) ∧
    [0, 0, 0, 0, 0, 0, 0, 0, 0, 0].getD 9 0 =
      crc8 ([0, 0, 0, 0, 0, 0, 0, 0, 0, 0].take 9) 0 ∧
    unpack_msg [0, 0, 0, 0, 0, 0, 0, 0, 0, 0] = (0, 0, 0, 0, 0, 0, 0, 0) :=
  ⟨by decide, rfl, by decide, rfl⟩

/-- C2, amended.  On every 10-byte packet whose byte 9 differs from the
CRC8 of bytes 0..8 (init 0x00, polynomial 0x97), `unpack_msg` detects the
mismatch but surfaces no distinct error result to the caller: it sets all
eight output fields to zero (logging only a debug message), an output
indistinguishable from the decode of a legitimate all-zero packet.  (The
rtl_433-side decoder `omni_decode`, by contrast, does return the distinct
result `DECODE_FAIL_MIC`.) -/
theorem c2_checksum_zeroing (b0 b1 b2 b3 b4 b5 b6 b7 b8 b9 : Nat)
    (hne : b9 ≠ crc8 [b0, b1, b2, b3, b4, b5, b6, b7, b8] 0) :
    unpack_msg [b0, b1, b2, b3, b4, b5, b6, b7, b8, b9] = (0, 0, 0, 0, 0, 0, 0, 0) :=
  unpack_msg_zero_of_crc_ne _ rfl hne

/-- C2, amended, witness: the zeroing theorem at the corrupt packet
`00×9, 01`. -/
theorem c2_checksum_zeroing_witness :
    unpack_msg [0, 0, 0, 0, 0, 0, 0, 0, 0, 1] = (0, 0, 0, 0, 0, 0, 0, 0) :=
  c2_checksum_zeroing 0 0 0 0 0 0 0 0 0 1 (by decide)

/-- Modelled from the spec: the rtl_433 library `crc8(message, nBytes,
polynomial 0x97, init 0x00)` called by `omni_decode` (its source is not
part of this repository) — MSB-first, no reflection: each byte is xored
into the remainder, followed by eight shift-and-conditionally-xor steps
with the polynomial. -/
def crc8_bitwise_step (r : Nat) : Nat :=
  if r &&& 0x80 ≠ 0 then ((r <<< 1) ^^^ 0x97) % 256 else (r <<< 1) % 256

/-- Modelled from the spec: the byte loop of the rtl_433 library `crc8`. -/
def crc8_bitwise (msg : List Nat) (init : Nat) : Nat :=
  msg.foldl (fun r b =>
    (List.range 8).foldl (fun acc _ => crc8_bitwise_step acc) ((r ^^^ b) % 256)) init

set_option maxRecDepth 8000 in
lemma CRC8Table_matches_bitwise :
    ∀ i < 256, CRC8Table.getD i 0 =
      (List.range 8).foldl (fun acc _ => crc8_bitwise_step acc) i := by decide

/-- The firmware's table-driven `crc8` and the rtl_433 library's bitwise
CRC8 with polynomial 0x97 agree on byte runs, so the single `crc8` above
serves both the encode side (`pack_msg`) and the decode side
(`omni_decode`). -/
lemma crc8_eq_bitwise (msg : List Nat) : ∀ (init : Nat),
    crc8 msg init = crc8_bitwise msg init := by
  induction msg with
  | nil => intro init; rfl
  | cons b t ih =>
    intro init
    rw [crc8_cons, ih]
    show crc8_bitwise t _ = crc8_bitwise t _
    rw [CRC8Table_matches_bitwise ((init ^^^ b) % 256) (Nat.mod_lt _ (by norm_num))]

/-- The error results of `omni_decode` (rtl_433 decoder source embedded in
`src/README.md`): `DECODE_ABORT_LENGTH` when no acceptable repeated row is
found, `DECODE_FAIL_MIC` on a CRC8 mismatch, `DECODE_FAIL_SANITY` for an
unregistered format nibble. -/
inductive DecodeError where
  | rowNotFoundError
  | checksumError
  | unknownFormatError
deriving DecidableEq, Repr

/-- The fields `omni_decode` publishes for a format-0 packet (`data_make`
branch `OMNI_MSGFMT_00`).  The C code reports `temperature_C =
itemp_raw / 10.0` and `voltage_V = volts_raw / 100.0 + 3.00` as doubles;
the integer values are kept here.  `payload` is bytes 1..8, which the C
code renders as a hex string. -/
structure Omni00Data where
  message_fmt : Nat
  id : Nat
  itemp_raw : Int
  volts_raw : Nat
  payload : List Nat
deriving DecidableEq, Repr

/-- The fields `omni_decode` publishes for a format-1 packet (`data_make`
branch `OMNI_MSGFMT_01`), as integers: the C code reports
`itemp_raw / 10.0`, `otemp_raw / 10.0`, `press_raw / 10.0` and
`volts_raw / 100.0 + 3.00` as doubles. -/
structure Omni01Data where
  message_fmt : Nat
  id : Nat
  itemp_raw : Int
  otemp_raw : Int
  ihum : Nat
  ohum : Nat
  press_raw : Nat
  volts_raw : Nat
deriving DecidableEq, Repr

/-- A successful `omni_decode` output: a format-0 or format-1 record. -/
inductive OmniData where
  | d00 (d : Omni00Data)
  | d01 (d : Omni01Data)
deriving DecidableEq, Repr

/-- Modelled from the spec: byte `j` of a captured bit row, packed
MSB-first ("Pack the matched bit row into 10 bytes, MSB-first") — the
`bitbuffer` rows `bitbuffer->bb[r]` that the external rtl_433 demodulator
hands to `omni_decode`. -/
def rowByte (row : List Bool) (j : Nat) : Nat :=
  (List.range 8).foldl
    (fun acc k => 2 * acc + (if row.getD (8 * j + k) false then 1 else 0)) 0

/-- Modelled from the spec: the rtl_433 library call
`bitbuffer_find_repeated_row(bitbuffer, 2, 80)` (its source is not part of
this repository): the index of the first row having at least 2 identical
occurrences among the candidate rows, each of at least 80 bits; `none`
when no such row exists. -/
def find_repeated_row (rows : List (List Bool)) : Option Nat :=
  (List.range rows.length).find? fun r =>
    decide (80 ≤ (rows.getD r []).length) &&
    decide (2 ≤ rows.countP fun q => decide (q = rows.getD r []))

/-- `omni_decode` from the rtl_433 decoder source embedded in
`src/README.md` (lines 614-705): find a row repeated at least twice at the
expected 80-bit length (`r < 0 || bitbuffer->bits_per_row[r] > 82` →
`DECODE_ABORT_LENGTH`); validate `crc8(b, 9, 0x97, 0x00) != b[9]` →
`DECODE_FAIL_MIC`; dispatch on `message_fmt = b[0] >> 4` (`id = b[0] &
0x0F`), decoding formats 0 and 1 and answering `DECODE_FAIL_SANITY` for
any other format.  Field arithmetic is byte-for-byte from the C:
`itemp = ((int32_t)((((uint32_t)b[1]) << 24) | ((uint32_t)(b[2]) & 0xF0) << 16)) >> 20`,
`otemp = ((int32_t)((((uint32_t)b[2]) << 28) | ((uint32_t)b[3]) << 20)) >> 20`,
`press = ((uint16_t)(b[6] << 8)) | b[7]`. -/
def omni_decode (rows : List (List Bool)) : Except DecodeError OmniData :=
  match find_repeated_row rows with
  | none => .error .rowNotFoundError
  | some r =>
    if 82 < (rows.getD r []).length then .error .rowNotFoundError
    else
      let b := fun j => rowByte (rows.getD r []) j
      if crc8 [b 0, b 1, b 2, b 3, b 4, b 5, b 6, b 7, b 8] 0 ≠ b 9 then
        .error .checksumError
      else
        let message_fmt := b 0 >>> 4
        let id := b 0 &&& 0x0F
        if message_fmt = 0 then
          .ok (.d00
            ⟨message_fmt, id,
             toInt32 (b 1 <<< 24 ||| (b 2 &&& 0xF0) <<< 16) / 1048576,
             b 8,
             [b 1, b 2, b 3, b 4, b 5, b 6, b 7, b 8]⟩)
        else if message_fmt = 1 then
          .ok (.d01
            ⟨message_fmt, id,
             toInt32 (b 1 <<< 24 ||| (b 2 &&& 0xF0) <<< 16) / 1048576,
             toInt32 (b 2 <<< 28 ||| b 3 <<< 20) / 1048576,
             b 4, b 5,
             (b 6 <<< 8) % 65536 ||| b 7,
             b 8⟩)
        else .error .unknownFormatError

/-- The 80 bits of a 10-byte message, MSB-first within each byte — the bit
order the transmitter emits and the demodulator reconstructs into a row. -/
def msgToBits (msg : List Nat) : List Bool :=
  (List.range 80).map fun i => (msg.getD (i / 8) 0).testBit (7 - i % 8)

/-- C7.  Capture-matcher acceptance condition: `omni_decode` gets past the
row-matching stage — that is, does not fail with `RowNotFoundError`
(`DECODE_ABORT_LENGTH`) — exactly when `find_repeated_row` finds a row
with at least two identical occurrences of at least the expected 80 bits
and that matched row is at most 82 bits long.  Otherwise the capture fails
with `RowNotFoundError` before any CRC validation or decoding, with no
internal retry (the function returns at once). -/
theorem c7_matcher_acceptance (rows : List (List Bool)) :
    omni_decode rows ≠ .error DecodeError.rowNotFoundError ↔
      ∃ r, find_repeated_row rows = some r ∧ (rows.getD r []).length ≤ 82 := by
  rcases hfind : find_repeated_row rows with _ | r
  · simp only [omni_decode, hfind]
    constructor
    · intro hne; exact absurd rfl hne
    · rintro ⟨r, hr, -⟩; exact absurd hr (by simp)
  · simp only [omni_decode, hfind]
    by_cases hlen : 82 < (rows.getD r []).length
    · rw [if_pos hlen]
      constructor
      · intro hne; exact absurd rfl hne
      · rintro ⟨r', hr', hle'⟩
        obtain rfl : r = r' := by injection hr'
        omega
    · rw [if_neg hlen]
      constructor
      · intro _; exact ⟨r, rfl, by omega⟩
      · intro _
        split
        · simp
        · split
          · simp
          · split <;> simp

/-- C7, witness: a capture with two identical 80-bit rows is accepted
(decode result is not `RowNotFoundError`), and the matcher condition holds
at row index 0; the empty capture fails the condition. -/
theorem c7_matcher_acceptance_witness :
    (find_repeated_row
        [msgToBits (pack_msg 1 9 224 (-215) 45 50 10037 188),
         msgToBits (pack_msg 1 9 224 (-215) 45 50 10037 188)] = some 0 ∧
      (([msgToBits (pack_msg 1 9 224 (-215) 45 50 10037 188),
         msgToBits (pack_msg 1 9 224 (-215) 45 50 10037 188)] : List (List Bool)).getD 0 []).length ≤ 82) ∧
    omni_decode
        [msgToBits (pack_msg 1 9 224 (-215) 45 50 10037 188),
         msgToBits (pack_msg 1 9 224 (-215) 45 50 10037 188)] ≠
      .error DecodeError.rowNotFoundError :=
  ⟨⟨by decide, by decide⟩,
   (c7_matcher_acceptance _).mpr ⟨0, by decide, by decide⟩⟩

/-- C8, counterexample.  The claim cites `unpack_msg` as a decode
operation that yields `UnknownFormatError` on a structurally valid packet
with unregistered format nibble (e.g. `fmt = 7`) and "never misinterprets
the payload under a default format's field layout".  But `unpack_msg`
performs no format dispatch at all: on this valid `fmt = 7` packet it
returns the format nibble unchanged together with payload fields fully
decoded under the fixed format-1 field layout — there is no error result
of any kind. -/
theorem c8_unpack_no_dispatch_counterexample :
    (pack_msg 7 1 234 (-56) 78 90 1234 210).getD 9 0 =
      crc8 ((pack_msg 7 1 234 (-56) 78 90 1234 210).take 9) 0 ∧
    unpack_msg (pack_msg 7 1 234 (-56) 78 90 1234 210) =
      (7, 1, 234, -56, 78, 90, 1234, 210) :=
  ⟨by decide, rfl⟩

/-- C8, amended.  The format dispatch lives in the rtl_433 receive decoder
`omni_decode` (not in the firmware's `unpack_msg`, which decodes every
CRC-valid packet under the fixed format-1 layout): whenever the matched
row passes the length gate and the CRC8 check but its format nibble
`b[0] >> 4` is neither of the registered formats 0 and 1 — for example
`fmt = 7` — `omni_decode` returns `UnknownFormatError`
(`DECODE_FAIL_SANITY`) and decodes nothing. -/
theorem c8_unknown_format (rows : List (List Bool)) (r : Nat)
    (hfind : find_repeated_row rows = some r)
    (hlen : (rows.getD r []).length ≤ 82)
    (hcrc : crc8 [rowByte (rows.getD r []) 0, rowByte (rows.getD r []) 1,
        rowByte (rows.getD r []) 2, rowByte (rows.getD r []) 3,
        rowByte (rows.getD r []) 4, rowByte (rows.getD r []) 5,
        rowByte (rows.getD r []) 6, rowByte (rows.getD r []) 7,
        rowByte (rows.getD r []) 8] 0 = rowByte (rows.getD r []) 9)
    (hf0 : rowByte (rows.getD r []) 0 >>> 4 ≠ 0)
    (hf1 : rowByte (rows.getD r []) 0 >>> 4 ≠ 1) :
    omni_decode rows = .error DecodeError.unknownFormatError := by
  simp only [omni_decode, hfind]
  rw [if_neg (by omega), if_neg (fun h => h hcrc), if_neg hf0, if_neg hf1]

set_option maxRecDepth 8000 in
/-- C8, amended, witness: a capture of two identical rows carrying the
valid `fmt = 7` packet `71 00 ... 00` with its CRC byte is rejected by
`omni_decode` as `UnknownFormatError`. -/
theorem c8_unknown_format_witness :
    omni_decode [msgToBits (pack_msg 7 1 0 0 0 0 0 0),
      msgToBits (pack_msg 7 1 0 0 0 0 0 0)] =
    .error DecodeError.unknownFormatError :=
  c8_unknown_format _ 0 (by decide) (by decide) (by decide) (by decide) (by decide)
